import Mathlib

/-!
Shallow embedding of the AthenaCore TaskMatrix orchestrator
(`src/lib/athenacore/ops/taskmatrix.ts`, bundled after the test file in
`src/src/lib/athenacore/__tests__/init.test.ts`).

Modelling conventions:
- JS numbers used as millisecond timestamps/durations are `Int` (timestamps)
  and `Nat` (durations of settling promises).
- A JS object field that may be absent is an `Option`; `none` means the
  property is absent (TypeScript `undefined`).
- Caller-supplied async functions (task bodies, fallbacks, condition
  predicates) are defunctionalised into small code types (`RunCode`,
  `FallCode`, `CondCode`) interpreted against the `TaskContext` they receive;
  a promise's behaviour is `RunBehavior`: it settles after some duration with
  a value or a rejection, or it never settles.
- The `EventEmitter` is modelled by returning the list of emitted events.
- `Promise.race` of the body against the `setTimeout` rejection timer is
  `race`: the body wins iff it settles strictly before the timer fires.
- ES2019 `Array.prototype.sort` is stable, so the loop's priority sort is
  modelled by a stable insertion sort (`sortByPriority`).
- The `ops` back-reference and the unused `monitoring` field of
  `TaskDefinition` are not carried: no engine code path consulted by the
  claims reads them.
-/

namespace AthenaCore

/-- An opaque JS value as seen by the engine (results of task bodies,
collaborator handles). -/
inductive Value where
  | vUndefined
  | vNull
  | vBool (b : Bool)
  | vInt (n : Int)
  | vStr (s : String)
deriving DecidableEq, Repr

/-- A JS `Error`, identified by its message (the engine creates errors only
via `new Error(message)`). -/
structure Error where
  message : String
deriving DecidableEq, Repr

/-- `EmotionalContext.mood` (source union type). -/
inductive Mood where
  | focused
  | creative
  | analytical
  | adaptive
  | custom
deriving DecidableEq, Repr

/-- `EmotionalContext.priority` (source union type). -/
inductive PriorityClass where
  | low
  | medium
  | high
  | critical
deriving DecidableEq, Repr

/-- `EmotionalContext` interface: resonance, mood, priority class, plus the
optional free-form mood string and tags. -/
structure EmotionalContext where
  resonance : Rat
  mood : Mood
  priority : PriorityClass
  customMood : Option String := none
  contextTags : Option (List String) := none
deriving DecidableEq, Repr

/-- `Partial<EmotionalContext>` as accepted by `updateEmotionalState`. -/
structure EmotionalContextPartial where
  resonance : Option Rat := none
  mood : Option Mood := none
  priority : Option PriorityClass := none
  customMood : Option String := none
  contextTags : Option (List String) := none
deriving DecidableEq, Repr

deriving instance DecidableEq for Except

/-- Behaviour of an awaited task body: settles after `durationMs` with a
result (fulfilled value or rejection), or never settles. -/
inductive RunBehavior where
  | settles (durationMs : Nat) (result : Except Error Value)
  | hangs
deriving DecidableEq, Repr

/-- Defunctionalised task body (`run`/`handler`).  `const` ignores the
context; `ifResonanceAtLeast` branches on the resonance of the
`emotionalState` the body receives; `kernelHeartbeat` is the bootstrap
heartbeat body `ctx.kernel.heartbeat?.()` against the placeholder kernel
`{}`, which settles immediately with `undefined`. -/
inductive RunCode where
  | const (b : RunBehavior)
  | ifResonanceAtLeast (threshold : Rat) (thenB elseB : RunBehavior)
  | kernelHeartbeat
deriving DecidableEq, Repr

/-- Defunctionalised condition predicate (task-level `condition` or a
`ControlOverride.conditions` entry); it may resolve to a boolean or throw. -/
inductive CondCode where
  | const (r : Except Error Bool)
  | resonanceAtLeast (threshold : Rat)
deriving DecidableEq, Repr

/-- Defunctionalised `ControlOverride.fallback` handler; `kernelRecover` is
the bootstrap fallback `ctx.kernel.recover?.()` against the placeholder
kernel. -/
inductive FallCode where
  | const (r : Except Error Value)
  | ifResonanceAtLeast (threshold : Rat) (thenR elseR : Except Error Value)
  | kernelRecover
deriving DecidableEq, Repr

/-- `ControlOverride` interface.  Every field is an `Option` because at run
time any property can be absent (the source guards with `?? true` / `?? 0`
even for fields TypeScript marks required). -/
structure ControlOverride where
  enabled : Option Bool := none
  priority : Option Int := none
  maxRetries : Option Int := none
  timeout : Option Int := none
  fallback : Option FallCode := none
  conditions : Option (List CondCode) := none
deriving DecidableEq, Repr

/-- `TaskContext` as received by task bodies, fallbacks and condition
predicates: collaborator handles plus the emotional/control state in effect.
(The `ops` back-reference to the orchestrator itself is not modelled.) -/
structure TaskContext where
  kernel : Value
  memory : Value
  llm : Value
  trading : Value
  verse : Value
  emotionalState : Option EmotionalContext := none
  controlState : Option ControlOverride := none
deriving DecidableEq, Repr

/-- `TaskDefinition` interface (the unused `monitoring` field is omitted). -/
structure TaskDefinition where
  id : String
  run : Option RunCode := none
  handler : Option RunCode := none
  name : Option String := none
  description : Option String := none
  condition : Option CondCode := none
  interval : Option Int := none
  priority : Option Int := none
  lastRun : Option Int := none
  enabled : Option Bool := none
  plugin : Option String := none
  emotionalContext : Option EmotionalContext := none
  controlOverride : Option ControlOverride := none
deriving DecidableEq, Repr

/-- The shared `this.ctx` object: collaborator handles plus the
orchestrator-wide emotional state republished into it. -/
structure MatrixCtx where
  kernel : Value
  memory : Value
  llm : Value
  trading : Value
  verse : Value
  emotionalState : EmotionalContext
deriving DecidableEq, Repr

/-- Initial `this.emotionalState` from the `TaskMatrix` field initialiser. -/
def defaultEmotionalState : EmotionalContext :=
  { resonance := 0.5, mood := .focused, priority := .medium }

/-- `TaskMatrix` instance state.  `tasks` is the `Map` (insertion-ordered
association list), `heartbeatTimer` records whether the `setInterval` handle
is live. -/
structure TaskMatrix where
  tasks : List (String × TaskDefinition) := []
  running : Bool := false
  ctx : MatrixCtx
  heartbeatTimer : Bool := false
  heartbeatMs : Int := 1000
  emotionalState : EmotionalContext := defaultEmotionalState
  lastHeartbeat : Int := 0
deriving DecidableEq, Repr

/-- Lifecycle events published on the emitter, with their payloads. -/
inductive Event where
  | task_registered (tid : String)
  | task_unregistered (tid : String)
  | task_skipped (tid : String) (reason : String)
  | task_ran (tid : String) (result : Value)
  | task_error (tid : String) (e : Error)
  | task_fallback_executed (tid : String)
  | task_fallback_failed (tid : String) (e : Error)
  | task_control_updated (tid : String)
  | emotional_updated (state : EmotionalContext)
  | heartbeat (timestamp : Int)
  | matrix_started
  | matrix_stopped
  | plugin_registered (pname : String)
deriving DecidableEq, Repr

/-- Resonance of the emotional state a context carries, defaulting to 0 when
absent (used only by the context-sensitive interpretation cases). -/
def ctxResonance (ctx : TaskContext) : Rat :=
  (ctx.emotionalState.map (fun s => s.resonance)).getD 0

/-- Interpretation of a task body code against the context it is called
with. -/
def interpRun : RunCode → TaskContext → RunBehavior
  | .const b, _ => b
  | .ifResonanceAtLeast thr bT bE, ctx =>
      if thr ≤ ctxResonance ctx then bT else bE
  | .kernelHeartbeat, _ => .settles 0 (.ok .vUndefined)

/-- Interpretation of a condition predicate code. -/
def interpCond : CondCode → TaskContext → Except Error Bool
  | .const r, _ => r
  | .resonanceAtLeast thr, ctx => .ok (decide (thr ≤ ctxResonance ctx))

/-- Interpretation of a fallback handler code. -/
def interpFallback : FallCode → TaskContext → Except Error Value
  | .const r, _ => r
  | .ifResonanceAtLeast thr rT rE, ctx =>
      if thr ≤ ctxResonance ctx then rT else rE
  | .kernelRecover, _ => .ok .vUndefined

/-- JS `a || d` for an optional numeric `a`: the value when present and
nonzero (truthy), otherwise the default. -/
def jsOrInt (v : Option Int) (d : Int) : Int :=
  match v with
  | some x => if x = 0 then d else x
  | none => d

/-- Map helpers over the insertion-ordered association list.  `mapSet`
mirrors JS `Map.set`: replace in place when the key exists (keeping its
insertion position), append otherwise. -/
def mapSet (l : List (String × TaskDefinition)) (k : String) (v : TaskDefinition) :
    List (String × TaskDefinition) :=
  match l with
  | [] => [(k, v)]
  | (k0, v0) :: rest => if k0 = k then (k, v) :: rest else (k0, v0) :: mapSet rest k v

/-- JS `Map.has`. -/
def mapHas (l : List (String × TaskDefinition)) (k : String) : Bool :=
  l.any (fun p => p.1 == k)

/-- JS `Map.get`. -/
def mapLookup (l : List (String × TaskDefinition)) (k : String) : Option TaskDefinition :=
  (l.find? (fun p => p.1 == k)).map Prod.snd

/-- The executable resolved by `registerTask`: `task.run || task.handler`. -/
def taskExec (t : TaskDefinition) : Option RunCode :=
  t.run <|> t.handler

/-- Registration-time merge `{...this.emotionalState, ...task.emotionalContext}`:
a full task-level context overrides every required field; its absent optional
fields fall back to the orchestrator default's. -/
def mergeTaskEmotional (base : EmotionalContext) : Option EmotionalContext → EmotionalContext
  | none => base
  | some ec =>
      { ec with
        customMood := ec.customMood <|> base.customMood,
        contextTags := ec.contextTags <|> base.contextTags }

/-- Registration-time normalisation of the control override:
`{...baseControlOverride, ...task.controlOverride, enabled: task.controlOverride.enabled ?? true}`
on top of `baseControlOverride = {enabled: true, priority: task.priority || 0}`. -/
def normalizeControl (taskPriority : Option Int) : Option ControlOverride → ControlOverride
  | none => { enabled := some true, priority := some (jsOrInt taskPriority 0) }
  | some c =>
      { enabled := some (c.enabled.getD true),
        priority := some (c.priority.getD (jsOrInt taskPriority 0)),
        maxRetries := c.maxRetries,
        timeout := c.timeout,
        fallback := c.fallback,
        conditions := c.conditions }

/-- The normalised copy stored by `registerTask` (its `enhancedTask`). -/
def enhanceTask (defaultState : EmotionalContext) (task : TaskDefinition) (r : RunCode) :
    TaskDefinition :=
  { task with
    run := some r,
    enabled := some (task.enabled != some false),
    emotionalContext := some (mergeTaskEmotional defaultState task.emotionalContext),
    controlOverride := some (normalizeControl task.priority task.controlOverride) }

/-- `TaskMatrix.registerTask`.  Throwing is modelled as `Except.error`; on
success the result carries the new state and the emitted events. -/
def registerTask (m : TaskMatrix) (task : TaskDefinition) :
    Except Error (TaskMatrix × List Event) :=
  match taskExec task with
  | none => .error { message := "Task must have a run or handler function" }
  | some r =>
      .ok ({ m with tasks := mapSet m.tasks task.id (enhanceTask m.emotionalState task r) },
           [.task_registered task.id])

/-- `TaskMatrix.unregisterTask`. -/
def unregisterTask (m : TaskMatrix) (tid : String) : TaskMatrix × List Event :=
  ({ m with tasks := m.tasks.filter (fun p => p.1 != tid) }, [.task_unregistered tid])

/-- `TaskMatrix.listTasks` (point-in-time snapshot of the map's values). -/
def listTasks (m : TaskMatrix) : List TaskDefinition :=
  m.tasks.map Prod.snd

/-- `Partial<EmotionalContext>` merged over the current default:
`{...this.emotionalState, ...state}`. -/
def mergeEmotionalPartial (base : EmotionalContext) (p : EmotionalContextPartial) :
    EmotionalContext :=
  { resonance := p.resonance.getD base.resonance,
    mood := p.mood.getD base.mood,
    priority := p.priority.getD base.priority,
    customMood := p.customMood <|> base.customMood,
    contextTags := p.contextTags <|> base.contextTags }

/-- `TaskMatrix.updateEmotionalState`: merge into the orchestrator-wide
default, republish it into the shared context, emit `emotional:updated`. -/
def updateEmotionalState (m : TaskMatrix) (p : EmotionalContextPartial) :
    TaskMatrix × List Event :=
  let newState := mergeEmotionalPartial m.emotionalState p
  ({ m with
      emotionalState := newState,
      ctx := { m.ctx with emotionalState := newState } },
   [.emotional_updated newState])

/-- `TaskMatrix.overrideTaskControl`: merge the partial into the task's
stored override, with the source's explicit `enabled`/`priority` fallback
chains, and emit `task:control:updated`; no-op when the id is absent. -/
def overrideTaskControl (m : TaskMatrix) (tid : String) (ov : ControlOverride) :
    TaskMatrix × List Event :=
  match mapLookup m.tasks tid with
  | none => (m, [])
  | some task =>
      let old := task.controlOverride
      let newCo : ControlOverride :=
        { enabled := some (ov.enabled.getD ((old.bind (fun c => c.enabled)).getD true)),
          priority := some (ov.priority.getD
            ((old.bind (fun c => c.priority)).getD (task.priority.getD 0))),
          maxRetries := ov.maxRetries <|> old.bind (fun c => c.maxRetries),
          timeout := ov.timeout <|> old.bind (fun c => c.timeout),
          fallback := ov.fallback <|> old.bind (fun c => c.fallback),
          conditions := ov.conditions <|> old.bind (fun c => c.conditions) }
      ({ m with tasks := mapSet m.tasks tid { task with controlOverride := some newCo } },
       [.task_control_updated tid])

/-- The `taskCtx` built at the top of `executeTask`:
`{...this.ctx, emotionalState: task.emotionalContext, controlState: task.controlOverride}`. -/
def mkTaskCtx (m : TaskMatrix) (task : TaskDefinition) : TaskContext :=
  { kernel := m.ctx.kernel, memory := m.ctx.memory, llm := m.ctx.llm,
    trading := m.ctx.trading, verse := m.ctx.verse,
    emotionalState := task.emotionalContext,
    controlState := task.controlOverride }

/-- `this.ctx` as passed to task-level `condition` predicates in the loop. -/
def baseTaskContext (m : TaskMatrix) : TaskContext :=
  { kernel := m.ctx.kernel, memory := m.ctx.memory, llm := m.ctx.llm,
    trading := m.ctx.trading, verse := m.ctx.verse,
    emotionalState := some m.ctx.emotionalState,
    controlState := none }

/-- `Promise.all` over the control conditions: first rejection in list order,
otherwise the list of booleans. -/
def evalConds (cs : List CondCode) (ctx : TaskContext) : Except Error (List Bool) :=
  cs.mapM (fun c => interpCond c ctx)

/-- The dedicated timeout rejection `new Error('Task timeout')`. -/
def timeoutError : Error := { message := "Task timeout" }

/-- Effective execution bound: `task.controlOverride?.timeout || 30000`
(JS `||`, so a configured 0 also falls back to the 30s default). -/
def effTimeout (task : TaskDefinition) : Int :=
  jsOrInt (task.controlOverride.bind (fun c => c.timeout)) 30000

/-- `Promise.race` of the body against the timeout timer: the body wins iff
it settles strictly before the timer fires. -/
def race (b : RunBehavior) (timeoutMs : Int) : Except Error Value :=
  match b with
  | .hangs => .error timeoutError
  | .settles d r => if (d : Int) < timeoutMs then r else .error timeoutError

/-- Wall-clock time consumed by awaiting the race. -/
def elapsedMs (b : RunBehavior) (timeoutMs : Int) : Int :=
  match b with
  | .hangs => timeoutMs
  | .settles d _ => min (d : Int) timeoutMs

/-- Stamp `task.lastRun = Date.now()` into the stored task object. -/
def setLastRun (m : TaskMatrix) (tid : String) (t : Int) : TaskMatrix :=
  { m with tasks := m.tasks.map fun p =>
      if p.1 = tid then (p.1, { p.2 with lastRun := some t }) else p }

/-- The raced run at the end of `executeTask`'s try block: compute the
timeout bound, require a `run` function, race it, and on success stamp
`lastRun` and emit `task:ran`.  Errors (with the clock after the failed
wait) fall through to the catch block. -/
def runRace (m : TaskMatrix) (task : TaskDefinition) (taskCtx : TaskContext) (clock : Int) :
    Except (Error × Int) (TaskMatrix × List Event × Int) :=
  let timeoutMs := effTimeout task
  match task.run with
  | none => .error ({ message := "Task has no run function defined" }, clock)
  | some code =>
      let b := interpRun code taskCtx
      let done := clock + elapsedMs b timeoutMs
      match race b timeoutMs with
      | .ok v => .ok (setLastRun m task.id done, [.task_ran task.id v], done)
      | .error e => .error (e, done)

/-- `executeTask`'s try block: evaluate the control conditions (a thrown
condition rejects into the catch block; any false condition emits
`task:skipped` and returns), then run the raced body. -/
def tryPhase (m : TaskMatrix) (task : TaskDefinition) (taskCtx : TaskContext) (clock : Int) :
    Except (Error × Int) (TaskMatrix × List Event × Int) :=
  match task.controlOverride.bind (fun c => c.conditions) with
  | some conds =>
      match evalConds conds taskCtx with
      | .error e => .error (e, clock)
      | .ok flags =>
          if flags.all (fun b => b) then runRace m task taskCtx clock
          else .ok (m, [.task_skipped task.id "control_conditions_not_met"], clock)
  | none => runRace m task taskCtx clock

/-- `executeTask`'s catch block: invoke the fallback (when present) with the
same `taskCtx`, emitting `task:fallback:executed` or `task:fallback:failed`,
then always emit `task:error`. -/
def catchPhase (m : TaskMatrix) (task : TaskDefinition) (taskCtx : TaskContext) (clock : Int)
    (e : Error) : TaskMatrix × List Event × Int :=
  match task.controlOverride.bind (fun c => c.fallback) with
  | some fb =>
      match interpFallback fb taskCtx with
      | .ok _ => (m, [.task_fallback_executed task.id, .task_error task.id e], clock)
      | .error fe => (m, [.task_fallback_failed task.id fe, .task_error task.id e], clock)
  | none => (m, [.task_error task.id e], clock)

/-- `TaskMatrix.executeTask`: build `taskCtx` once, run the try block, and
route any error through the catch block. -/
def executeTask (m : TaskMatrix) (task : TaskDefinition) (clock : Int) :
    TaskMatrix × List Event × Int :=
  let taskCtx := mkTaskCtx m task
  match tryPhase m task taskCtx clock with
  | .ok r => r
  | .error (e, c) => catchPhase m task taskCtx c e

/-- Numeric priority used by the loop's sort: `task.priority || 0` (with
default 0 this coincides with `getD 0`). -/
def effPriority (t : TaskDefinition) : Int :=
  t.priority.getD 0

/-- Stable insertion for the descending priority sort: a task is placed
before the first task of priority less than or equal to its own, so earlier
tasks stay first among equals. -/
def insertByPriority (t : TaskDefinition) : List TaskDefinition → List TaskDefinition
  | [] => [t]
  | u :: us =>
      if effPriority u ≤ effPriority t then t :: u :: us
      else u :: insertByPriority t us

/-- The loop's `.sort((a, b) => (b.priority || 0) - (a.priority || 0))`,
modelled as a stable sort (ES2019 `Array.prototype.sort` is stable). -/
def sortByPriority : List TaskDefinition → List TaskDefinition
  | [] => []
  | t :: ts => insertByPriority t (sortByPriority ts)

/-- The loop's `.filter(task => task.enabled)` over the map snapshot. -/
def enabledTasks (m : TaskMatrix) : List TaskDefinition :=
  (m.tasks.map Prod.snd).filter (fun t => t.enabled.getD false)

/-- The per-tick selection: enabled tasks in descending priority order. -/
def selectTasks (m : TaskMatrix) : List TaskDefinition :=
  sortByPriority (enabledTasks m)

/-- The loop's interval gate:
`task.interval && task.lastRun && now - task.lastRun < task.interval`
(JS truthiness: a 0 interval or 0 lastRun disables the gate). -/
def intervalGateSkips (now : Int) (t : TaskDefinition) : Bool :=
  match t.interval, t.lastRun with
  | some i, some lr => i != 0 && lr != 0 && decide (now - lr < i)
  | _, _ => false

/-- Result of one pass of the tick loop. `halted = some e` means a
task-level `condition` predicate threw: the loop's promise rejected there,
so the remaining tasks of the pass were not evaluated and no further pass
runs. -/
structure TickResult where
  matrix : TaskMatrix
  events : List Event
  clock : Int
  halted : Option Error
deriving DecidableEq, Repr

/-- Body of one tick pass over the sorted selection: interval gate, then the
task-level `condition` against `this.ctx` (an exception halts the pass),
then `executeTask`. -/
def tickGo (now : Int) : List TaskDefinition → TaskMatrix → List Event → Int → TickResult
  | [], m, evs, clock => ⟨m, evs, clock, none⟩
  | t :: rest, m, evs, clock =>
      if intervalGateSkips now t then tickGo now rest m evs clock
      else
        match t.condition with
        | some c =>
            match interpCond c (baseTaskContext m) with
            | .error e => ⟨m, evs, clock, some e⟩
            | .ok b =>
                if b then
                  match executeTask m t clock with
                  | (m', evs', clock') => tickGo now rest m' (evs ++ evs') clock'
                else tickGo now rest m evs clock
        | none =>
            match executeTask m t clock with
            | (m', evs', clock') => tickGo now rest m' (evs ++ evs') clock'

/-- One full pass of `loop()` starting at wall-clock `now`. -/
def tickPass (m : TaskMatrix) (now : Int) : TickResult :=
  tickGo now (selectTasks m) m [] now

/-- The `while (this.running)` loop with explicit fuel: run a pass, sleep the
100ms quantum, repeat; a rejected pass ends the loop with its error. -/
def runLoop : Nat → TaskMatrix → Int → TaskMatrix × List Event × Int × Option Error
  | 0, m, now => (m, [], now, none)
  | Nat.succ fuel, m, now =>
      if m.running then
        let r := tickPass m now
        match r.halted with
        | some e => (r.matrix, r.events, r.clock, some e)
        | none =>
            match runLoop fuel r.matrix (r.clock + 100) with
            | (m', evs', now', h') => (m', r.events ++ evs', now', h')
      else (m, [], now, none)

/-- `TaskMatrix.start`: no-op while already running; otherwise set `running`,
install the heartbeat timer, emit `matrix:started` and launch the loop (the
boolean reports whether a new loop was launched). -/
def startM (m : TaskMatrix) : TaskMatrix × List Event × Bool :=
  if m.running then (m, [], false)
  else ({ m with running := true, heartbeatTimer := true }, [.matrix_started], true)

/-- `TaskMatrix.stop`: clear `running` and the heartbeat timer, emit
`matrix:stopped`. -/
def stopM (m : TaskMatrix) : TaskMatrix × List Event :=
  ({ m with running := false, heartbeatTimer := false }, [.matrix_stopped])

/-- `TaskMatrix.heartbeat` at wall-clock `now`: stamp `lastHeartbeat` and
emit `heartbeat` (the fire-and-forget `kernel.selfHeal?.()` has no observable
effect against the placeholder kernel). -/
def heartbeatM (m : TaskMatrix) (now : Int) : TaskMatrix × List Event :=
  ({ m with lastHeartbeat := now }, [.heartbeat now])

/-- The `TaskMatrix` constructor with the given collaborator handles. -/
def mkTaskMatrix (k mem l tr v : Value) : TaskMatrix :=
  { tasks := [], running := false,
    ctx := { kernel := k, memory := mem, llm := l, trading := tr, verse := v,
             emotionalState := defaultEmotionalState },
    heartbeatTimer := false, heartbeatMs := 1000,
    emotionalState := defaultEmotionalState, lastHeartbeat := 0 }

/-- The default heartbeat task registered by `bootstrapTaskMatrix`. -/
def heartbeatTaskDef : TaskDefinition :=
  { id := "heartbeat",
    run := some .kernelHeartbeat,
    interval := some 1000,
    enabled := some true,
    emotionalContext := some { resonance := 0.9, mood := .focused, priority := .critical },
    controlOverride := some
      { enabled := some true, priority := some 100, maxRetries := some 3,
        timeout := some 5000, fallback := some .kernelRecover } }

/-- `bootstrapTaskMatrix`: construct the orchestrator and register the
default heartbeat task, without starting it.  (Registration cannot fail here:
the task has a `run` function.) -/
def bootstrapTaskMatrix (k mem l tr v : Value) : TaskMatrix :=
  match registerTask (mkTaskMatrix k mem l tr v) heartbeatTaskDef with
  | .ok (m', _) => m'
  | .error _ => mkTaskMatrix k mem l tr v

/-! ### Concrete fixtures used by witnesses and counterexamples -/

/-- A fresh orchestrator over placeholder collaborator handles (the bootstrap
in `init.ts` passes placeholder objects for kernel/memory/trading). -/
def sampleMatrix : TaskMatrix :=
  mkTaskMatrix .vUndefined .vUndefined .vUndefined .vUndefined .vUndefined

/-- Register a task, keeping the old state when registration throws (used
only to build concrete fixtures whose registrations all succeed). -/
def regOr (m : TaskMatrix) (t : TaskDefinition) : TaskMatrix :=
  match registerTask m t with
  | .ok (m', _) => m'
  | .error _ => m

/-- The stored (normalised) task behind an id, for fixtures whose id is
known to be present. -/
def storedTask (m : TaskMatrix) (tid : String) : TaskDefinition :=
  (mapLookup m.tasks tid).getD { id := tid }

/-! ### Helper lemmas about the map and the execution phases -/

theorem length_mapSet_of_mapHas (l : List (String × TaskDefinition)) (k : String)
    (v : TaskDefinition) (h : mapHas l k = true) : (mapSet l k v).length = l.length := by
  induction l with
  | nil => simp [mapHas] at h
  | cons p rest ih =>
      by_cases hk : p.1 = k
      · simp [mapSet, hk]
      · have h' : mapHas rest k = true := by
          simp only [mapHas, List.any_cons, Bool.or_eq_true, beq_iff_eq] at h
          rcases h with h | h
          · exact absurd h hk
          · simpa [mapHas] using h
        simp [mapSet, hk, ih h']

theorem mapLookup_mapSet (l : List (String × TaskDefinition)) (k : String)
    (v : TaskDefinition) : mapLookup (mapSet l k v) k = some v := by
  induction l with
  | nil => simp [mapSet, mapLookup]
  | cons p rest ih =>
      by_cases hk : p.1 = k
      · simp [mapSet, hk, mapLookup]
      · simpa [mapSet, hk, mapLookup, List.find?_cons] using ih

theorem catchPhase_matrix (m : TaskMatrix) (task : TaskDefinition) (ctx : TaskContext)
    (clock : Int) (e : Error) : (catchPhase m task ctx clock e).1 = m := by
  unfold catchPhase
  split
  · split <;> rfl
  · rfl

theorem catchPhase_clock (m : TaskMatrix) (task : TaskDefinition) (ctx : TaskContext)
    (clock : Int) (e : Error) : (catchPhase m task ctx clock e).2.2 = clock := by
  unfold catchPhase
  split
  · split <;> rfl
  · rfl

theorem catchPhase_mem_error (m : TaskMatrix) (task : TaskDefinition) (ctx : TaskContext)
    (clock : Int) (e : Error) :
    Event.task_error task.id e ∈ (catchPhase m task ctx clock e).2.1 := by
  unfold catchPhase
  split
  · split <;> simp
  · simp

theorem catchPhase_no_task_ran (m : TaskMatrix) (task : TaskDefinition) (ctx : TaskContext)
    (clock : Int) (e : Error) (tid : String) (v : Value) :
    Event.task_ran tid v ∉ (catchPhase m task ctx clock e).2.1 := by
  unfold catchPhase
  split
  · split <;> simp
  · simp

theorem runRace_ok_inv (m : TaskMatrix) (task : TaskDefinition) (ctx : TaskContext)
    (clock : Int) (m' : TaskMatrix) (evs : List Event) (c' : Int)
    (h : runRace m task ctx clock = .ok (m', evs, c')) :
    ∃ v d, evs = [Event.task_ran task.id v] ∧ c' = clock + ((d : Nat) : Int) ∧
      m' = setLastRun m task.id c' := by
  simp only [runRace] at h
  split at h
  · exact absurd h (by simp)
  · rename_i code hcode
    split at h
    · rename_i v hrace
      simp only [Except.ok.injEq, Prod.mk.injEq] at h
      obtain ⟨h1, h2, h3⟩ := h
      have hb : ∃ d, elapsedMs (interpRun code ctx) (effTimeout task) = ((d : Nat) : Int) := by
        cases hi : interpRun code ctx with
        | hangs => rw [hi] at hrace; simp [race] at hrace
        | settles d r =>
            rw [hi] at hrace
            simp only [race] at hrace
            split at hrace
            · rename_i hlt
              exact ⟨d, by simp [elapsedMs, min_eq_left (le_of_lt hlt)]⟩
            · exact absurd hrace (by simp)
      obtain ⟨d, hd⟩ := hb
      exact ⟨v, d, h2.symm, by rw [← h3, hd], by rw [← h1, ← h3]⟩
    · exact absurd h (by simp)

theorem tryPhase_ok_inv (m : TaskMatrix) (task : TaskDefinition) (ctx : TaskContext)
    (clock : Int) (m' : TaskMatrix) (evs : List Event) (c' : Int)
    (h : tryPhase m task ctx clock = .ok (m', evs, c')) :
    (m' = m ∧ evs = [Event.task_skipped task.id "control_conditions_not_met"] ∧ c' = clock) ∨
    (∃ v d, evs = [Event.task_ran task.id v] ∧ c' = clock + ((d : Nat) : Int) ∧
      m' = setLastRun m task.id c') := by
  simp only [tryPhase] at h
  split at h
  · split at h
    · exact absurd h (by simp)
    · split at h
      · exact Or.inr (runRace_ok_inv _ _ _ _ _ _ _ h)
      · simp only [Except.ok.injEq, Prod.mk.injEq] at h
        exact Or.inl ⟨h.1.symm, h.2.1.symm, h.2.2.symm⟩
  · exact Or.inr (runRace_ok_inv _ _ _ _ _ _ _ h)

theorem executeTask_matrix (m : TaskMatrix) (task : TaskDefinition) (clock : Int) :
    (executeTask m task clock).1 = m ∨
    ∃ d, (executeTask m task clock).1 = setLastRun m task.id d := by
  simp only [executeTask]
  split
  · rename_i r hr
    obtain ⟨m', evs, c'⟩ := r
    rcases tryPhase_ok_inv _ _ _ _ _ _ _ hr with ⟨h1, _, _⟩ | ⟨v, d, _, _, h3⟩
    · exact Or.inl h1
    · exact Or.inr ⟨c', h3⟩
  · simp only [catchPhase_matrix]
    exact Or.inl trivial

theorem setLastRun_ctx (m : TaskMatrix) (tid : String) (t : Int) :
    (setLastRun m tid t).ctx = m.ctx := rfl

theorem executeTask_ctx (m : TaskMatrix) (task : TaskDefinition) (clock : Int) :
    (executeTask m task clock).1.ctx = m.ctx := by
  rcases executeTask_matrix m task clock with h | ⟨d, h⟩
  · rw [h]
  · rw [h, setLastRun_ctx]

/-! ### Lemmas about the stable priority sort -/

theorem insertByPriority_perm (t : TaskDefinition) (l : List TaskDefinition) :
    List.Perm (insertByPriority t l) (t :: l) := by
  induction l with
  | nil => rfl
  | cons u us ih =>
      unfold insertByPriority
      by_cases hle : effPriority u ≤ effPriority t
      · rw [if_pos hle]
      · rw [if_neg hle]
        exact (ih.cons u).trans (List.Perm.swap t u us)

theorem sortByPriority_perm (l : List TaskDefinition) :
    List.Perm (sortByPriority l) l := by
  induction l with
  | nil => rfl
  | cons t ts ih =>
      exact (insertByPriority_perm t (sortByPriority ts)).trans (ih.cons t)

theorem pairwise_insertByPriority (t : TaskDefinition) (l : List TaskDefinition)
    (h : List.Pairwise (fun a b => effPriority b ≤ effPriority a) l) :
    List.Pairwise (fun a b => effPriority b ≤ effPriority a) (insertByPriority t l) := by
  induction l with
  | nil => simp [insertByPriority]
  | cons u us ih =>
      rw [List.pairwise_cons] at h
      unfold insertByPriority
      by_cases hle : effPriority u ≤ effPriority t
      · rw [if_pos hle]
        refine List.Pairwise.cons ?_ (List.Pairwise.cons h.1 h.2)
        intro x hx
        rcases List.mem_cons.mp hx with hx | hx
        · rw [hx]; exact hle
        · exact le_trans (h.1 x hx) hle
      · rw [if_neg hle]
        refine List.Pairwise.cons ?_ (ih h.2)
        intro x hx
        have hx' := (insertByPriority_perm t us).mem_iff.mp hx
        rcases List.mem_cons.mp hx' with hx1 | hx1
        · rw [hx1]; exact le_of_lt (lt_of_not_le hle)
        · exact h.1 x hx1

theorem pairwise_sortByPriority (l : List TaskDefinition) :
    List.Pairwise (fun a b => effPriority b ≤ effPriority a) (sortByPriority l) := by
  induction l with
  | nil => simp [sortByPriority]
  | cons t ts ih => exact pairwise_insertByPriority t (sortByPriority ts) ih

theorem filter_insertByPriority (t : TaskDefinition) (l : List TaskDefinition) (p : Int) :
    (insertByPriority t l).filter (fun u => effPriority u == p) =
      if effPriority t == p then t :: l.filter (fun u => effPriority u == p)
      else l.filter (fun u => effPriority u == p) := by
  induction l with
  | nil =>
      by_cases hpt : effPriority t = p <;>
        simp [insertByPriority, List.filter_cons, hpt]
  | cons u us ih =>
      unfold insertByPriority
      by_cases hle : effPriority u ≤ effPriority t
      · rw [if_pos hle]
        by_cases hpt : effPriority t = p <;>
          simp [List.filter_cons, hpt]
      · rw [if_neg hle]
        by_cases hpt : effPriority t = p
        · by_cases hpu : effPriority u = p
          · exact absurd (hpu.trans hpt.symm).le hle
          · simp [List.filter_cons, hpt, hpu, ih]
        · by_cases hpu : effPriority u = p <;>
            simp [List.filter_cons, hpt, hpu, ih]

theorem filter_sortByPriority (l : List TaskDefinition) (p : Int) :
    (sortByPriority l).filter (fun u => effPriority u == p) =
      l.filter (fun u => effPriority u == p) := by
  induction l with
  | nil => rfl
  | cons t ts ih =>
      show (insertByPriority t (sortByPriority ts)).filter (fun u => effPriority u == p) = _
      rw [filter_insertByPriority]
      by_cases hpt : effPriority t = p <;> simp [List.filter_cons, hpt, ih]

/-! ### Boolean helpers for hypotheses of the claim theorems -/

/-- The task-level `condition` (if any) resolves without throwing against the
given orchestrator's shared context. -/
def condOkB (m : TaskMatrix) (t : TaskDefinition) : Bool :=
  match t.condition with
  | some c => (interpCond c (baseTaskContext m)).isOk
  | none => true

theorem condOkB_ctx_eq {m m' : TaskMatrix} (h : m'.ctx = m.ctx) (t : TaskDefinition) :
    condOkB m' t = condOkB m t := by
  unfold condOkB baseTaskContext
  rw [h]

/-- The control-override conditions (if any) all resolve to `true` against
the given task context. -/
def controlCondsPass (task : TaskDefinition) (ctx : TaskContext) : Bool :=
  match task.controlOverride.bind (fun c => c.conditions) with
  | none => true
  | some cs =>
      match evalConds cs ctx with
      | .ok flags => flags.all (fun b => b)
      | .error _ => false

/-! ### More concrete fixtures -/

/-- A body that settles immediately and successfully. -/
def bodyOk : RunCode := .const (.settles 0 (.ok .vUndefined))

def boomError : Error := { message := "boom" }

def condBoomError : Error := { message := "cond boom" }

/-- A task whose body rejects and whose override carries a succeeding
fallback. -/
def tfDef : TaskDefinition :=
  { id := "tf", run := some (.const (.settles 0 (.error boomError))),
    controlOverride := some { fallback := some (.const (.ok .vUndefined)) } }

def mTF : TaskMatrix := regOr sampleMatrix tfDef

def tfS : TaskDefinition := storedTask mTF "tf"

/-- A task with a configured `timeout` of 0 whose body settles after 10ms. -/
def tzDef : TaskDefinition :=
  { id := "tz", run := some (.const (.settles 10 (.ok .vUndefined))),
    controlOverride := some { timeout := some 0 } }

def mTZ : TaskMatrix := regOr sampleMatrix tzDef

def tzS : TaskDefinition := storedTask mTZ "tz"

/-- A task whose body never settles, with a 50ms timeout and a failing
fallback. -/
def thDef : TaskDefinition :=
  { id := "th", run := some (.const .hangs),
    controlOverride := some
      { timeout := some 50, fallback := some (.const (.error { message := "fb" })) } }

def mTH : TaskMatrix := regOr sampleMatrix thDef

def thS : TaskDefinition := storedTask mTH "th"

/-- A task with a control condition that resolves to `false`. -/
def tcDef : TaskDefinition :=
  { id := "tc", run := some bodyOk,
    controlOverride := some { conditions := some [.const (.ok false)] } }

def mTC : TaskMatrix := regOr sampleMatrix tcDef

def tcS : TaskDefinition := storedTask mTC "tc"

/-- A task registered with `interval = 1000` and a caller-supplied
`lastRun = 0` (both properties set, but `lastRun` falsy). -/
def tADef : TaskDefinition :=
  { id := "a", run := some bodyOk, interval := some 1000, lastRun := some 0 }

def mC5 : TaskMatrix := regOr sampleMatrix tADef

/-- A high-priority task whose task-level `condition` throws. -/
def t1Def : TaskDefinition :=
  { id := "t1", run := some bodyOk, priority := some 5,
    condition := some (.const (.error condBoomError)) }

/-- An ordinary task with no gates. -/
def t2Def : TaskDefinition :=
  { id := "t2", run := some bodyOk }

def mC2 : TaskMatrix := regOr (regOr sampleMatrix t1Def) t2Def

def mC2only : TaskMatrix := regOr sampleMatrix t2Def

/-- Tasks used by the C5 gate witnesses. -/
def tGateDef : TaskDefinition :=
  { id := "g", run := some bodyOk, interval := some 1000, lastRun := some 600 }

def tGate2Def : TaskDefinition :=
  { id := "g2", run := some bodyOk, interval := some 1000, lastRun := some 500 }

/-- Duplicate-id registration fixtures. -/
def dup1Def : TaskDefinition := { id := "dup", run := some bodyOk, priority := some 1 }

def dup2Def : TaskDefinition := { id := "dup", run := some bodyOk, priority := some 2 }

def mDup : TaskMatrix := regOr sampleMatrix dup1Def

/-- The partial emotional update used by the C8 witness. -/
def p0Partial : EmotionalContextPartial := { resonance := some 0.9 }

def oldDef : TaskDefinition := { id := "old", run := some bodyOk }

def newDef : TaskDefinition := { id := "new", run := some bodyOk }

def mOld : TaskMatrix := regOr sampleMatrix oldDef

/-! ### Claim theorems -/

/-- C4: within a single tick pass, the selected enabled tasks execute in
non-increasing order of their numeric `priority` (defaulting to 0), tasks of
equal priority keep their iteration (registration) order — the selection is
exactly a stable descending-priority reordering of the enabled tasks. -/
theorem C4_priority_order (m : TaskMatrix) :
    List.Pairwise (fun a b => effPriority b ≤ effPriority a) (selectTasks m) ∧
    (∀ p : Int, (selectTasks m).filter (fun t => effPriority t == p) =
      (enabledTasks m).filter (fun t => effPriority t == p)) ∧
    List.Perm (selectTasks m) (enabledTasks m) :=
  ⟨pairwise_sortByPriority _, fun p => filter_sortByPriority _ p, sortByPriority_perm _⟩

/-- C7: `registerTask` throws the missing-executable error when the task
definition has neither `run` nor `handler`; in the model the exception is the
`Except.error` result, so no state change and no `task:registered` event can
be observed. -/
theorem C7_register_requires_executable (m : TaskMatrix) (task : TaskDefinition)
    (h1 : task.run = none) (h2 : task.handler = none) :
    registerTask m task = .error { message := "Task must have a run or handler function" } := by
  unfold registerTask taskExec
  rw [h1, h2]
  rfl

/-- C7 witness: the error at a concrete executable-free definition. -/
theorem C7_register_requires_executable_witness :
    registerTask sampleMatrix { id := "nope" } =
      .error { message := "Task must have a run or handler function" } :=
  C7_register_requires_executable sampleMatrix { id := "nope" } rfl rfl

/-- C9: calling `start()` on a running orchestrator is a no-op — the state
(including the heartbeat-timer flag) is unchanged, no `matrix:started` event
is emitted, and no new tick loop is launched. -/
theorem C9_start_idempotent (m : TaskMatrix) (h : m.running = true) :
    startM m = (m, [], false) := by
  unfold startM
  rw [h]
  rfl

/-- C9 witness: a concrete running orchestrator. -/
theorem C9_start_idempotent_witness :
    startM { sampleMatrix with running := true } =
      ({ sampleMatrix with running := true }, [], false) :=
  C9_start_idempotent { sampleMatrix with running := true } rfl

/-- C10: `registerTask` with an id already present succeeds, emits
`task:registered` again, and replaces the stored definition with the newly
normalised one while the registry keeps its size (JS `Map.set`
semantics). -/
theorem C10_reregister_replaces (m : TaskMatrix) (task : TaskDefinition) (r : RunCode)
    (hexec : taskExec task = some r) (hhas : mapHas m.tasks task.id = true) :
    registerTask m task =
      .ok ({ m with tasks := mapSet m.tasks task.id (enhanceTask m.emotionalState task r) },
           [Event.task_registered task.id]) ∧
    (mapSet m.tasks task.id (enhanceTask m.emotionalState task r)).length = m.tasks.length ∧
    mapLookup (mapSet m.tasks task.id (enhanceTask m.emotionalState task r)) task.id =
      some (enhanceTask m.emotionalState task r) := by
  refine ⟨?_, length_mapSet_of_mapHas _ _ _ hhas, mapLookup_mapSet _ _ _⟩
  unfold registerTask
  rw [hexec]

/-- C10 witness: re-registering id `dup` with a new priority. -/
theorem C10_reregister_replaces_witness :
    registerTask mDup dup2Def =
      .ok ({ mDup with
              tasks := mapSet mDup.tasks "dup" (enhanceTask mDup.emotionalState dup2Def bodyOk) },
           [Event.task_registered "dup"]) ∧
    (mapSet mDup.tasks "dup" (enhanceTask mDup.emotionalState dup2Def bodyOk)).length =
      mDup.tasks.length ∧
    mapLookup (mapSet mDup.tasks "dup" (enhanceTask mDup.emotionalState dup2Def bodyOk)) "dup" =
      some (enhanceTask mDup.emotionalState dup2Def bodyOk) :=
  C10_reregister_replaces mDup dup2Def bodyOk rfl rfl

/-- C6: when the ControlOverride carries extra `conditions` and they resolve
with at least one `false`, `executeTask` emits exactly the `task:skipped`
event with reason `control_conditions_not_met`, the body does not run, and
the state (hence `lastRun`) is unchanged. -/
theorem C6_control_conditions_skip (m : TaskMatrix) (task : TaskDefinition) (clock : Int)
    (conds : List CondCode) (flags : List Bool)
    (hconds : task.controlOverride.bind (fun c => c.conditions) = some conds)
    (heval : evalConds conds (mkTaskCtx m task) = .ok flags)
    (hfalse : false ∈ flags) :
    executeTask m task clock =
      (m, [Event.task_skipped task.id "control_conditions_not_met"], clock) := by
  have hall : flags.all (fun b => b) = false := by
    rcases Bool.eq_false_or_eq_true (flags.all (fun b => b)) with h | h
    · have := List.all_eq_true.mp h false hfalse
      exact absurd this (by simp)
    · exact h
  have h1 : tryPhase m task (mkTaskCtx m task) clock =
      .ok (m, [Event.task_skipped task.id "control_conditions_not_met"], clock) := by
    unfold tryPhase
    simp only [hconds, heval, hall]
    rfl
  simp only [executeTask, h1]

/-- C6 witness: a concrete task with a false control condition at a
nontrivial clock. -/
theorem C6_control_conditions_skip_witness :
    executeTask mTC tcS 7 =
      (mTC, [Event.task_skipped "tc" "control_conditions_not_met"], 7) :=
  C6_control_conditions_skip mTC tcS 7 [.const (.ok false)] [false] rfl rfl
    (List.mem_singleton.mpr rfl)

/-- C1: when the try block of `executeTask` fails with error `e` (body
rejection, timeout, thrown control condition or missing run function) and the
ControlOverride carries a fallback, the fallback is invoked with the same
`taskCtx` built at the top of `executeTask`; the emitted events are exactly
`task:fallback:executed` (fallback succeeded) or `task:fallback:failed`
(fallback failed) followed by `task:error` with the original error — the
error event is never suppressed. -/
theorem C1_fallback_never_suppresses_error (m : TaskMatrix) (task : TaskDefinition)
    (clock : Int) (fb : FallCode) (e : Error) (c' : Int)
    (hfb : task.controlOverride.bind (fun c => c.fallback) = some fb)
    (hfail : tryPhase m task (mkTaskCtx m task) clock = .error (e, c')) :
    Event.task_error task.id e ∈ (executeTask m task clock).2.1 ∧
    (executeTask m task clock).2.1 =
      (match interpFallback fb (mkTaskCtx m task) with
       | .ok _ => [Event.task_fallback_executed task.id, Event.task_error task.id e]
       | .error fe => [Event.task_fallback_failed task.id fe, Event.task_error task.id e]) := by
  have hev : (executeTask m task clock).2.1 =
      (catchPhase m task (mkTaskCtx m task) c' e).2.1 := by
    simp only [executeTask, hfail]
  refine ⟨?_, ?_⟩
  · rw [hev]
    exact catchPhase_mem_error m task (mkTaskCtx m task) c' e
  · rw [hev]
    cases hi : interpFallback fb (mkTaskCtx m task) <;>
      simp [catchPhase, hfb, hi]

/-- C1 witness: a concrete rejecting body with a succeeding fallback — both
`task:fallback:executed` and `task:error` are observed. -/
theorem C1_fallback_never_suppresses_error_witness :
    Event.task_error "tf" boomError ∈ (executeTask mTF tfS 0).2.1 ∧
    (executeTask mTF tfS 0).2.1 =
      (match interpFallback (.const (.ok .vUndefined)) (mkTaskCtx mTF tfS) with
       | .ok _ => [Event.task_fallback_executed "tf", Event.task_error "tf" boomError]
       | .error fe => [Event.task_fallback_failed "tf" fe, Event.task_error "tf" boomError]) :=
  C1_fallback_never_suppresses_error mTF tfS 0 (.const (.ok .vUndefined)) boomError 0 rfl rfl

/-- C8: `updateEmotionalState(partial)` merges the partial into the
orchestrator-wide default and republishes it into the shared context; the
stored task map — and with it every registered task's per-task
EmotionalContext snapshot — is unchanged, while a task registered afterwards
is normalised against the new default (snapshot-at-registration
semantics). -/
theorem C8_emotional_snapshot_semantics (m : TaskMatrix) (p : EmotionalContextPartial)
    (task : TaskDefinition) (r : RunCode) (hexec : taskExec task = some r) :
    (updateEmotionalState m p).1.emotionalState = mergeEmotionalPartial m.emotionalState p ∧
    (updateEmotionalState m p).1.ctx.emotionalState = mergeEmotionalPartial m.emotionalState p ∧
    (updateEmotionalState m p).1.tasks = m.tasks ∧
    (updateEmotionalState m p).2 =
      [Event.emotional_updated (mergeEmotionalPartial m.emotionalState p)] ∧
    registerTask (updateEmotionalState m p).1 task =
      .ok ({ (updateEmotionalState m p).1 with
              tasks := mapSet m.tasks task.id
                (enhanceTask (mergeEmotionalPartial m.emotionalState p) task r) },
           [Event.task_registered task.id]) ∧
    (enhanceTask (mergeEmotionalPartial m.emotionalState p) task r).emotionalContext =
      some (mergeTaskEmotional (mergeEmotionalPartial m.emotionalState p)
        task.emotionalContext) := by
  refine ⟨rfl, rfl, rfl, rfl, ?_, rfl⟩
  unfold registerTask
  rw [hexec]
  rfl

/-- C8 witness: after raising the default resonance to 0.9, the stored task
is untouched and a subsequent registration snapshots the new default. -/
theorem C8_emotional_snapshot_semantics_witness :
    (updateEmotionalState mOld p0Partial).1.emotionalState =
      mergeEmotionalPartial mOld.emotionalState p0Partial ∧
    (updateEmotionalState mOld p0Partial).1.ctx.emotionalState =
      mergeEmotionalPartial mOld.emotionalState p0Partial ∧
    (updateEmotionalState mOld p0Partial).1.tasks = mOld.tasks ∧
    (updateEmotionalState mOld p0Partial).2 =
      [Event.emotional_updated (mergeEmotionalPartial mOld.emotionalState p0Partial)] ∧
    registerTask (updateEmotionalState mOld p0Partial).1 newDef =
      .ok ({ (updateEmotionalState mOld p0Partial).1 with
              tasks := mapSet mOld.tasks "new"
                (enhanceTask (mergeEmotionalPartial mOld.emotionalState p0Partial) newDef
                  bodyOk) },
           [Event.task_registered "new"]) ∧
    (enhanceTask (mergeEmotionalPartial mOld.emotionalState p0Partial) newDef
        bodyOk).emotionalContext =
      some (mergeTaskEmotional (mergeEmotionalPartial mOld.emotionalState p0Partial)
        newDef.emotionalContext) :=
  C8_emotional_snapshot_semantics mOld p0Partial newDef bodyOk rfl

theorem tryPhase_race_error (m : TaskMatrix) (task : TaskDefinition) (ctx : TaskContext)
    (clock : Int) (code : RunCode) (e : Error)
    (hrun : task.run = some code)
    (hcond : controlCondsPass task ctx = true)
    (hrace : race (interpRun code ctx) (effTimeout task) = .error e) :
    tryPhase m task ctx clock =
      .error (e, clock + elapsedMs (interpRun code ctx) (effTimeout task)) := by
  have hrr : runRace m task ctx clock =
      .error (e, clock + elapsedMs (interpRun code ctx) (effTimeout task)) := by
    unfold runRace
    simp only [hrun, hrace]
  unfold controlCondsPass at hcond
  unfold tryPhase
  split at hcond
  · rename_i hc
    simp only [hc]
    exact hrr
  · rename_i cs hc
    simp only [hc]
    split at hcond
    · rename_i flags he
      simp only [he]
      rw [if_pos hcond]
      exact hrr
    · simp at hcond

/-- C3 (amended): execution races the body against a timer bounded by the
ControlOverride `timeout` when it is set and nonzero, and by the 30000ms
default when it is unset (or set to the falsy 0 — see the counterexample);
when the timer expires first (the body hangs, or settles no earlier than the
bound) the failure carries the dedicated `Task timeout` error and is
surfaced as a `task:error` event, not dropped. -/
theorem C3_timeout_failure_reported (m : TaskMatrix) (task : TaskDefinition) (clock : Int)
    (code : RunCode)
    (hrun : task.run = some code)
    (hcond : controlCondsPass task (mkTaskCtx m task) = true) :
    ((∀ tmo, task.controlOverride.bind (fun c => c.timeout) = some tmo → tmo ≠ 0 →
        effTimeout task = tmo) ∧
     (task.controlOverride.bind (fun c => c.timeout) = none → effTimeout task = 30000)) ∧
    (interpRun code (mkTaskCtx m task) = .hangs →
      Event.task_error task.id timeoutError ∈ (executeTask m task clock).2.1) ∧
    (∀ d r, interpRun code (mkTaskCtx m task) = .settles d r → effTimeout task ≤ (d : Int) →
      Event.task_error task.id timeoutError ∈ (executeTask m task clock).2.1) := by
  refine ⟨⟨?_, ?_⟩, ?_, ?_⟩
  · intro tmo htmo hne
    unfold effTimeout jsOrInt
    rw [htmo]
    simp [hne]
  · intro hnone
    unfold effTimeout jsOrInt
    rw [hnone]
  · intro hhang
    have hrace : race (interpRun code (mkTaskCtx m task)) (effTimeout task) =
        .error timeoutError := by rw [hhang]; rfl
    have htp := tryPhase_race_error m task (mkTaskCtx m task) clock code timeoutError
      hrun hcond hrace
    have hev : (executeTask m task clock).2.1 =
        (catchPhase m task (mkTaskCtx m task)
          (clock + elapsedMs (interpRun code (mkTaskCtx m task)) (effTimeout task))
          timeoutError).2.1 := by
      simp only [executeTask, htp]
    rw [hev]
    exact catchPhase_mem_error _ _ _ _ _
  · intro d r hset hge
    have hrace : race (interpRun code (mkTaskCtx m task)) (effTimeout task) =
        .error timeoutError := by
      rw [hset]
      simp [race, not_lt.mpr hge]
    have htp := tryPhase_race_error m task (mkTaskCtx m task) clock code timeoutError
      hrun hcond hrace
    have hev : (executeTask m task clock).2.1 =
        (catchPhase m task (mkTaskCtx m task)
          (clock + elapsedMs (interpRun code (mkTaskCtx m task)) (effTimeout task))
          timeoutError).2.1 := by
      simp only [executeTask, htp]
    rw [hev]
    exact catchPhase_mem_error _ _ _ _ _

/-- C3 witness: a hanging body with a 50ms timeout — the timeout error event
is emitted (alongside the failing fallback's event). -/
theorem C3_timeout_failure_reported_witness :
    ((∀ tmo, thS.controlOverride.bind (fun c => c.timeout) = some tmo → tmo ≠ 0 →
        effTimeout thS = tmo) ∧
     (thS.controlOverride.bind (fun c => c.timeout) = none → effTimeout thS = 30000)) ∧
    (interpRun (.const .hangs) (mkTaskCtx mTH thS) = .hangs →
      Event.task_error "th" timeoutError ∈ (executeTask mTH thS 100).2.1) ∧
    (∀ d r, interpRun (.const .hangs) (mkTaskCtx mTH thS) = .settles d r →
      effTimeout thS ≤ (d : Int) →
      Event.task_error "th" timeoutError ∈ (executeTask mTH thS 100).2.1) :=
  C3_timeout_failure_reported mTH thS 100 (.const .hangs) rfl rfl

/-- C3 counterexample: a task whose ControlOverride configures `timeout: 0`.
The claim says the timer is set to the configured timeout (0ms, which a 10ms
body must lose against); the code computes `timeout || 30000`, treats the
configured 0 as absent, races against 30000ms, and the body succeeds with
`task:ran` and no timeout failure. -/
theorem C3_zero_timeout_uses_default :
    tzS.controlOverride.bind (fun c => c.timeout) = some 0 ∧
    effTimeout tzS = 30000 ∧
    (executeTask mTZ tzS 0).2.1 = [Event.task_ran "tz" .vUndefined] :=
  ⟨rfl, rfl, rfl⟩

/-- C5 (amended): the interval gate and the lastRun refresh.  (1) On a tick
at time `now`, a task whose `interval` and `lastRun` are both set and
truthy (nonzero) with elapsed time below the interval contributes nothing
to the pass: it is skipped outright.  (2) When an execution emits
`task:ran`, the stored task's `lastRun` is stamped with the completion time,
which is not before the start of the execution.  (3) Consequently a task
whose truthy gate does not fire has waited at least `interval` since
`lastRun` — consecutive executions are no closer than the interval, up to
the tick quantum. -/
theorem C5_interval_gate_and_refresh :
    (∀ (now : Int) (t : TaskDefinition) (rest : List TaskDefinition) (m : TaskMatrix)
        (evs : List Event) (clock : Int), intervalGateSkips now t = true →
        tickGo now (t :: rest) m evs clock = tickGo now rest m evs clock) ∧
    (∀ (m : TaskMatrix) (task : TaskDefinition) (clock : Int) (v : Value),
        Event.task_ran task.id v ∈ (executeTask m task clock).2.1 →
        ∃ d : Nat, (executeTask m task clock).2.2 = clock + (d : Int) ∧
          (executeTask m task clock).1 =
            setLastRun m task.id ((executeTask m task clock).2.2) ∧
          clock ≤ (executeTask m task clock).2.2) ∧
    (∀ (now i lr : Int) (t : TaskDefinition), t.interval = some i → t.lastRun = some lr →
        i ≠ 0 → lr ≠ 0 → intervalGateSkips now t = false → i ≤ now - lr) := by
  refine ⟨?_, ?_, ?_⟩
  · intro now t rest m evs clock hskip
    rw [tickGo]
    simp [hskip]
  · intro m task clock v hmem
    cases h : tryPhase m task (mkTaskCtx m task) clock with
    | error p =>
        obtain ⟨e, c⟩ := p
        have hev : (executeTask m task clock).2.1 =
            (catchPhase m task (mkTaskCtx m task) c e).2.1 := by
          simp only [executeTask, h]
        rw [hev] at hmem
        exact absurd hmem (catchPhase_no_task_ran m task (mkTaskCtx m task) c e task.id v)
    | ok r =>
        obtain ⟨m', evs', c'⟩ := r
        have hex : executeTask m task clock = (m', evs', c') := by
          simp only [executeTask, h]
        rcases tryPhase_ok_inv _ _ _ _ _ _ _ h with ⟨_, h2, _⟩ | ⟨v', d, h2, h3, h4⟩
        · rw [hex, h2] at hmem
          simp at hmem
        · refine ⟨d, ?_, ?_, ?_⟩
          · rw [hex]
            exact h3
          · rw [hex]
            exact h4
          · rw [hex, h3]
            exact le_add_of_nonneg_right (Int.natCast_nonneg d)
  · intro now i lr t hi hlr hi0 hlr0 hskip
    unfold intervalGateSkips at hskip
    rw [hi, hlr] at hskip
    simp only [bne_iff_ne, ne_eq, hi0, not_false_eq_true, hlr0, Bool.and_eq_false_imp,
      decide_eq_true_eq, decide_eq_false_iff_not, not_lt] at hskip
    exact hskip (by simp [hi0, hlr0])

/-- C5 witness: (1) a task with `interval = 1000`, `lastRun = 600` at
`now = 700` contributes nothing to the pass; (2) a successful execution
stamps `lastRun` with its completion time; (3) a task with `interval =
1000`, `lastRun = 500` that passes the gate at `now = 1600` has waited at
least its interval. -/
theorem C5_interval_gate_and_refresh_witness :
    tickGo 700 [tGateDef] sampleMatrix [] 700 = tickGo 700 [] sampleMatrix [] 700 ∧
    (∃ d : Nat, (executeTask mTZ tzS 0).2.2 = 0 + (d : Int) ∧
      (executeTask mTZ tzS 0).1 = setLastRun mTZ "tz" ((executeTask mTZ tzS 0).2.2) ∧
      (0 : Int) ≤ (executeTask mTZ tzS 0).2.2) ∧
    (1000 : Int) ≤ 1600 - 500 :=
  ⟨C5_interval_gate_and_refresh.1 700 tGateDef [] sampleMatrix [] 700 (by decide),
   C5_interval_gate_and_refresh.2.1 mTZ tzS 0 .vUndefined (by decide),
   C5_interval_gate_and_refresh.2.2 1600 1000 500 tGate2Def rfl rfl (by decide) (by decide)
     (by decide)⟩

/-- C5 counterexample: the claim's gate fires whenever `interval` and
`lastRun` are both SET and the elapsed time is below the interval.  The
registered task `a` has `interval = 1000` and `lastRun = 0` (both set), the
tick happens at `now = 500` with elapsed 500 < 1000, yet the code's JS
truthiness test (`task.interval && task.lastRun && ...`) sees the 0 as
falsy, skips the gate and runs the task. -/
theorem C5_lastRun_zero_not_gated :
    (storedTask mC5 "a").interval = some 1000 ∧
    (storedTask mC5 "a").lastRun = some 0 ∧
    ((500 : Int) - 0 < 1000) ∧
    (tickPass mC5 500).events = [Event.task_ran "a" .vUndefined] :=
  ⟨rfl, rfl, by decide, rfl⟩

/-- C2 (amended): failures inside `executeTask` are isolated — a task whose
body throws/rejects, whose run function is missing, or whose
ControlOverride conditions throw is caught there and surfaced as events, so
it never halts the pass: as long as every processed task's task-level
`condition` predicate resolves without throwing, the pass runs to completion
(`halted = none`, every listed task is evaluated).  A task-level `condition`
that throws, however, rejects the loop promise (see the counterexample). -/
theorem C2_body_failures_isolated (now : Int) (ts : List TaskDefinition) :
    ∀ (m : TaskMatrix) (evs : List Event) (clock : Int),
      (∀ t ∈ ts, condOkB m t = true) →
      (tickGo now ts m evs clock).halted = none := by
  induction ts with
  | nil =>
      intro m evs clock _
      rfl
  | cons t rest ih =>
      intro m evs clock h
      have ht := h t (List.mem_cons_self t rest)
      have hrest : ∀ u ∈ rest, condOkB m u = true :=
        fun u hu => h u (List.mem_cons_of_mem t hu)
      rw [tickGo]
      by_cases hg : intervalGateSkips now t = true
      · simp only [hg, if_true]
        exact ih m evs clock hrest
      · simp only [Bool.not_eq_true] at hg
        simp only [hg, Bool.false_eq_true, if_false]
        cases hc : t.condition with
        | none =>
            simp only
            rcases hE : executeTask m t clock with ⟨m', evs', c'⟩
            have hctx : m'.ctx = m.ctx := by
              have := executeTask_ctx m t clock
              rw [hE] at this
              exact this
            exact ih m' (evs ++ evs') c'
              (fun u hu => (condOkB_ctx_eq hctx u).trans (hrest u hu))
        | some c =>
            simp only
            have hok : (interpCond c (baseTaskContext m)).isOk = true := by
              unfold condOkB at ht
              rw [hc] at ht
              exact ht
            cases hi : interpCond c (baseTaskContext m) with
            | error e =>
                rw [hi] at hok
                simp [Except.isOk, Except.toBool] at hok
            | ok b =>
                simp only
                cases b with
                | false =>
                    simp only [Bool.false_eq_true, if_false]
                    exact ih m evs clock hrest
                | true =>
                    simp only [if_true]
                    rcases hE : executeTask m t clock with ⟨m', evs', c'⟩
                    have hctx : m'.ctx = m.ctx := by
                      have := executeTask_ctx m t clock
                      rw [hE] at this
                      exact this
                    exact ih m' (evs ++ evs') c'
                      (fun u hu => (condOkB_ctx_eq hctx u).trans (hrest u hu))

/-- C2 witness: a pass over a selection whose (absent) conditions cannot
throw completes without halting. -/
theorem C2_body_failures_isolated_witness :
    (tickGo 0 (selectTasks mC2only) mC2only [] 0).halted = none :=
  C2_body_failures_isolated 0 (selectTasks mC2only) mC2only [] 0 (by decide)

/-- C2 counterexample: in `mC2`, the high-priority task `t1` has a
task-level `condition` that throws while `t2` is a plain runnable task.
The pass at time 0 halts with `t1`'s condition error, emits no events and
leaves the state untouched — in particular `t2`, which runs fine when alone
(fourth conjunct), is never evaluated; with the loop running, the whole loop
dies on the rejection and later passes never happen (fifth and sixth
conjuncts). -/
theorem C2_condition_throw_halts_pass :
    (tickPass mC2 0).halted = some condBoomError ∧
    (tickPass mC2 0).events = [] ∧
    (tickPass mC2 0).matrix = mC2 ∧
    (tickPass mC2only 0).events = [Event.task_ran "t2" .vUndefined] ∧
    (runLoop 3 { mC2 with running := true } 0).2.2.2 = some condBoomError ∧
    (runLoop 3 { mC2 with running := true } 0).2.1 = [] :=
  ⟨rfl, rfl, rfl, rfl, rfl, rfl⟩

end AthenaCore
